import Mathlib

/-!
# Track-Save: Ledger Storage & Analytics Aggregation Engine — verification

Shallow embedding of the server storage layer (`DatabaseStorage` in
`src/server/routes.ts`, storage module section) and its validation boundary
(`insertTransactionSchema` in `src/shared/schema.ts`).

Modelling conventions:
* The database module (`server/db.ts`) is not part of the sources; following
  the spec's relational-store contract (spec §1, §6), SQL row sets are
  modelled as Lean lists of rows, `WHERE` clauses as `List.filter`,
  `SUM(...)` as a fold (SQL `sum` of no rows is `NULL`, which the code maps
  to `0` via `Number(x || 0)`; the fold of the empty list is `0`, matching).
* Decimal amounts (`numeric(10,2)`) are modelled as exact rationals `ℚ`,
  per the spec's "decimal amounts must round-trip exactly (no floating-point
  amount representation)" contract (§6).
* Calendar dates (`date` columns, format `YYYY-MM-DD`) are modelled as
  structured dates `SDate`; date comparison is modelled by the numeric key
  `y*10000 + m*100 + d`, which coincides with chronological order and with
  lexicographic ISO-string order on valid dates.  Query-string date bounds
  arrive as raw strings; `dateKeyOfStr` models the store's text→date
  interpretation of such bounds.
* JavaScript `Date` month arithmetic (`setMonth(getMonth() - months)`,
  with day-overflow normalization) is modelled by `jsMonthsAgo`.
* Timestamps (`createdAt`/`updatedAt`, refreshed via `new Date()`) are
  modelled as an abstract `Nat` clock value passed in explicitly.
-/

/-- Transaction polarity, `transactionTypeEnum` in `src/shared/schema.ts`:
`['income', 'expense']`. -/
inductive TxnType where
  | income
  | expense
deriving DecidableEq, Repr

/-- Spending/income classification, `categoryEnum` in `src/shared/schema.ts`. -/
inductive Category where
  | food
  | transportation
  | entertainment
  | utilities
  | healthcare
  | shopping
  | income
  | salary
  | freelance
  | investment
  | other
deriving DecidableEq, Repr

/-- Wire representation of a `TxnType` (the enum's string value). -/
def typeToString : TxnType → String
  | .income => "income"
  | .expense => "expense"

/-- Wire representation of a `Category` (the enum's string value). -/
def catToString : Category → String
  | .food => "food"
  | .transportation => "transportation"
  | .entertainment => "entertainment"
  | .utilities => "utilities"
  | .healthcare => "healthcare"
  | .shopping => "shopping"
  | .income => "income"
  | .salary => "salary"
  | .freelance => "freelance"
  | .investment => "investment"
  | .other => "other"

/-- A calendar date `YYYY-MM-DD` (the `date` column type), as a structured
triple.  Validity (`SDate.Valid`) is a separate predicate, since the code
also builds out-of-calendar bound values such as `\x7bcurrentMonth\x7d-31`. -/
structure SDate where
  y : Nat
  m : Nat
  d : Nat
deriving DecidableEq, Repr

/-- Order key of a date: `y*10000 + m*100 + d`.  On dates with `m ≤ 12` and
`d ≤ 31` this coincides with lexicographic order of the ISO string
`YYYY-MM-DD`, which is how the store compares `date` values. -/
def SDate.key (dt : SDate) : Nat := dt.y * 10000 + dt.m * 100 + dt.d

/-- Gregorian leap-year test. -/
def isLeap (y : Nat) : Bool := (y % 4 == 0 && y % 100 != 0) || y % 400 == 0

/-- Number of days of month `m` of year `y` (Gregorian calendar). -/
def daysInMonth (y m : Nat) : Nat :=
  if m = 2 then (if isLeap y then 29 else 28)
  else if m = 4 ∨ m = 6 ∨ m = 9 ∨ m = 11 then 30
  else 31

/-- `dt` is a real calendar date. -/
def SDate.Valid (dt : SDate) : Prop :=
  1 ≤ dt.m ∧ dt.m ≤ 12 ∧ 1 ≤ dt.d ∧ dt.d ≤ daysInMonth dt.y dt.m

instance (dt : SDate) : Decidable dt.Valid := by
  unfold SDate.Valid; infer_instance

/-- A row of the `transactions` table (`src/shared/schema.ts`). -/
structure Txn where
  id : String
  userId : String
  type : TxnType
  description : String
  amount : ℚ
  category : Category
  date : SDate
  currency : String
  createdAt : Nat
  updatedAt : Nat
deriving DecidableEq, Repr

/-- Sum of the `amount` column over a row set (`sum(transactions.amount)`,
with SQL `NULL` on the empty set mapped to `0` by `Number(x || 0)`). -/
def sumAmounts (l : List Txn) : ℚ := (l.map Txn.amount).sum

/-- The dashboard month window of `getDashboardData`: the code compares the
`date` column against the bound strings `\x7bcurrentMonth\x7d-01` and
`\x7bcurrentMonth\x7d-31`, i.e. keys of `⟨y, m, 1⟩` and `⟨y, m, 31⟩`
(`gte`/`lte`, both inclusive). -/
def inDashboardWindow (y m : Nat) (dt : SDate) : Bool :=
  decide (SDate.key ⟨y, m, 1⟩ ≤ dt.key ∧ dt.key ≤ SDate.key ⟨y, m, 31⟩)

/-- Result record of `getDashboardData`. -/
structure DashboardData where
  totalBalance : ℚ
  monthlyIncome : ℚ
  monthlyExpenses : ℚ
  savingsRate : ℚ
deriving DecidableEq, Repr

/-- `DatabaseStorage.getDashboardData` (routes.ts storage section, lines
504–547).  The code derives `currentMonth` (`YYYY-MM`) from the clock; here
the as-of year `y` and month `m` are explicit parameters.

```ts
const monthlyIncome = Number(incomeResult[0]?.total || 0);
const monthlyExpenses = Number(expenseResult[0]?.total || 0);
const totalBalance = monthlyIncome - monthlyExpenses;
const savingsRate = monthlyIncome > 0
  ? ((monthlyIncome - monthlyExpenses) / monthlyIncome) * 100 : 0;
``` -/
def getDashboardData (store : List Txn) (uid : String) (y m : Nat) : DashboardData :=
  let monthlyIncome := sumAmounts (store.filter (fun t =>
    decide (t.userId = uid ∧ t.type = TxnType.income) && inDashboardWindow y m t.date))
  let monthlyExpenses := sumAmounts (store.filter (fun t =>
    decide (t.userId = uid ∧ t.type = TxnType.expense) && inDashboardWindow y m t.date))
  let totalBalance := monthlyIncome - monthlyExpenses
  let savingsRate :=
    if 0 < monthlyIncome then ((monthlyIncome - monthlyExpenses) / monthlyIncome) * 100 else 0
  { totalBalance := totalBalance
    monthlyIncome := monthlyIncome
    monthlyExpenses := monthlyExpenses
    savingsRate := savingsRate }

-- Window lemma: on valid dates the `-01`/`-31` key bounds carve out exactly
-- the calendar month (y, m).

theorem daysInMonth_le_31 (y m : Nat) : daysInMonth y m ≤ 31 := by
  unfold daysInMonth
  split
  · split <;> omega
  · split <;> omega

theorem inDashboardWindow_iff (y m : Nat) (dt : SDate)
    (hm1 : 1 ≤ m) (hm12 : m ≤ 12) (hv : dt.Valid) :
    inDashboardWindow y m dt = true ↔ (dt.y = y ∧ dt.m = m) := by
  obtain ⟨h1, h2, h3, h4⟩ := hv
  have h31 : dt.d ≤ 31 := le_trans h4 (daysInMonth_le_31 dt.y dt.m)
  simp only [inDashboardWindow, SDate.key, decide_eq_true_eq]
  omega

example :
    getDashboardData
      [{ id := "t1", userId := "u", type := .income, description := "pay",
         amount := 1000, category := .salary, date := ⟨2024, 1, 15⟩,
         currency := "INR", createdAt := 0, updatedAt := 0 },
       { id := "t2", userId := "u", type := .expense, description := "food",
         amount := 300, category := .food, date := ⟨2024, 1, 20⟩,
         currency := "INR", createdAt := 0, updatedAt := 0 },
       { id := "t3", userId := "u", type := .expense, description := "food",
         amount := 150, category := .food, date := ⟨2024, 2, 5⟩,
         currency := "INR", createdAt := 0, updatedAt := 0 }]
      "u" 2024 1
    = { totalBalance := 700, monthlyIncome := 1000, monthlyExpenses := 300,
        savingsRate := 70 } := by
  simp [getDashboardData, sumAmounts, inDashboardWindow, SDate.key, List.filter]
  norm_num

/-- A sample row, used to instantiate hypotheses of the claim theorems. -/
def sampleTxn : Txn :=
  { id := "t1", userId := "u", type := .income, description := "pay",
    amount := 1000, category := .salary, date := ⟨2024, 1, 15⟩,
    currency := "INR", createdAt := 0, updatedAt := 0 }

/-- A second sample row (an expense of another owner). -/
def sampleTxn2 : Txn :=
  { id := "t2", userId := "v", type := .expense, description := "food",
    amount := 300, category := .food, date := ⟨2024, 1, 20⟩,
    currency := "INR", createdAt := 0, updatedAt := 0 }

/-- C1: the dashboard summary's derived fields satisfy the spec arithmetic:
`totalBalance = monthlyIncome − monthlyExpenses` exactly, and `savingsRate`
is `((monthlyIncome − monthlyExpenses) / monthlyIncome) * 100` when
`monthlyIncome > 0` and `0` when `monthlyIncome = 0` (the division is only
taken under the positivity guard, so the computation never divides by
zero). -/
theorem dashboard_summary_arithmetic (store : List Txn) (uid : String) (y m : Nat) :
    (getDashboardData store uid y m).totalBalance
        = (getDashboardData store uid y m).monthlyIncome
          - (getDashboardData store uid y m).monthlyExpenses
    ∧ ((getDashboardData store uid y m).monthlyIncome = 0 →
        (getDashboardData store uid y m).savingsRate = 0)
    ∧ (0 < (getDashboardData store uid y m).monthlyIncome →
        (getDashboardData store uid y m).savingsRate
          = (((getDashboardData store uid y m).monthlyIncome
              - (getDashboardData store uid y m).monthlyExpenses)
             / (getDashboardData store uid y m).monthlyIncome) * 100) := by
  refine ⟨rfl, ?_, ?_⟩
  · intro h
    simp only [getDashboardData] at h ⊢
    rw [if_neg (by rw [h]; exact lt_irrefl 0)]
  · intro h
    simp only [getDashboardData] at h ⊢
    rw [if_pos h]

/-- Witness for C1 at a concrete store: the zero-income owner `w` gets
savings rate `0`, and the sample owner's balance is income minus
expenses. -/
theorem dashboard_summary_arithmetic_witness :
    (getDashboardData [sampleTxn] "w" 2024 1).savingsRate = 0
    ∧ (getDashboardData [sampleTxn] "u" 2024 1).totalBalance
        = (getDashboardData [sampleTxn] "u" 2024 1).monthlyIncome
          - (getDashboardData [sampleTxn] "u" 2024 1).monthlyExpenses :=
  ⟨(dashboard_summary_arithmetic [sampleTxn] "w" 2024 1).2.1
      (by simp [getDashboardData, sumAmounts, sampleTxn]),
   (dashboard_summary_arithmetic [sampleTxn] "u" 2024 1).1⟩

/-- C2: the dashboard's `monthlyIncome` (resp. `monthlyExpenses`) sums the
amounts of exactly the owner's income (resp. expense) transactions whose
date lies in the calendar month `(y, m)`: for stores of valid calendar
dates, the `-01`/`-31` inclusive bounds select every day of that month
(also for 28/29/30-day months) and no day outside it. -/
theorem dashboard_month_sums (store : List Txn) (uid : String) (y m : Nat)
    (hm1 : 1 ≤ m) (hm12 : m ≤ 12) (hv : ∀ t ∈ store, t.date.Valid) :
    (getDashboardData store uid y m).monthlyIncome
      = sumAmounts (store.filter (fun t =>
          decide (t.userId = uid ∧ t.type = TxnType.income ∧ t.date.y = y ∧ t.date.m = m)))
    ∧ (getDashboardData store uid y m).monthlyExpenses
      = sumAmounts (store.filter (fun t =>
          decide (t.userId = uid ∧ t.type = TxnType.expense ∧ t.date.y = y ∧ t.date.m = m))) := by
  constructor <;>
  · simp only [getDashboardData]
    congr 1
    apply List.filter_congr
    intro t ht
    have hiff := inDashboardWindow_iff y m t.date hm1 hm12 (hv t ht)
    rw [Bool.eq_iff_iff]
    simp only [Bool.and_eq_true, decide_eq_true_eq, hiff]
    tauto

/-- Witness for C2 at a concrete one-row store with a valid date. -/
theorem dashboard_month_sums_witness :
    (getDashboardData [sampleTxn] "u" 2024 1).monthlyIncome
      = sumAmounts ([sampleTxn].filter (fun t =>
          decide (t.userId = "u" ∧ t.type = TxnType.income ∧ t.date.y = 2024 ∧ t.date.m = 1)))
    ∧ (getDashboardData [sampleTxn] "u" 2024 1).monthlyExpenses
      = sumAmounts ([sampleTxn].filter (fun t =>
          decide (t.userId = "u" ∧ t.type = TxnType.expense ∧ t.date.y = 2024 ∧ t.date.m = 1))) :=
  dashboard_month_sums [sampleTxn] "u" 2024 1 (by decide) (by decide) (by decide)

/-! ## Date-string interpretation

`getTransactions` and `getExpensesByCategory` receive date bounds as raw
query strings.  The store (spec §6: generic relational store, `db.ts` not in
the sources) interprets such a bound as a calendar date; `dateKeyOfStr`
models that interpretation, mapping `"YYYY-MM-DD"` to the order key
`y*10000 + m*100 + d`. -/

/-- Numeric value of a decimal digit character. -/
def digitVal (c : Char) : Nat := c.toNat - 48

/-- Numeric value of a digit string (as a character list). -/
def natOfDigits (cs : List Char) : Nat := cs.foldl (fun a c => a * 10 + digitVal c) 0

/-- Split a character list on `-` separators. -/
def splitOnDash : List Char → List (List Char)
  | [] => [[]]
  | c :: cs =>
    let r := splitOnDash cs
    if c = '-' then [] :: r
    else (c :: r.headD []) :: r.tail

/-- Order key of a date bound given as a `"YYYY-MM-DD"` string. -/
def dateKeyOfStr (s : String) : Nat :=
  match (splitOnDash s.toList).map natOfDigits with
  | [y, m, d] => y * 10000 + m * 100 + d
  | _ => 0

example : dateKeyOfStr "2024-01-15" = 20240115 := by decide

/-! ## listTransactions -/

/-- The optional filter of `getTransactions` (routes.ts storage section,
lines 389–394); each field is a query-string value, `none` when the query
parameter was absent (`req.query` destructuring in the route handler,
lines 37–54, passes the raw values straight through). -/
structure TxnFilter where
  startDate : Option String
  endDate : Option String
  category : Option String
  type : Option String
deriving DecidableEq, Repr

/-- Models the JavaScript truthiness guard `if (filters?.field)` around each
`conditions.push(...)`: the condition `cond` constrains the row only when
the field is present and non-empty; otherwise the row passes. -/
def guardOpt (v : Option String) (cond : String → Bool) : Bool :=
  match v with
  | none => true
  | some s => if s = "" then true else cond s

/-- Descending insertion of a row into a date-descending list. -/
def insertDesc (t : Txn) : List Txn → List Txn
  | [] => [t]
  | u :: us => if u.date.key ≤ t.date.key then t :: u :: us else u :: insertDesc t us

/-- `ORDER BY date DESC` (routes.ts storage section, line 414), as an
insertion sort on the date key. -/
def sortByDateDesc : List Txn → List Txn
  | [] => []
  | t :: ts => insertDesc t (sortByDateDesc ts)

/-- `DatabaseStorage.getTransactions` (routes.ts storage section, lines
389–415): rows of the caller's owner id, narrowed by each truthy filter
field (`date ≥ startDate`, `date ≤ endDate`, exact match on
`category`/`type`), ordered by `date` descending. -/
def getTransactions (store : List Txn) (uid : String) (f : TxnFilter) : List Txn :=
  sortByDateDesc (store.filter (fun t =>
    decide (t.userId = uid)
    && guardOpt f.startDate (fun s => decide (dateKeyOfStr s ≤ t.date.key))
    && guardOpt f.endDate (fun s => decide (t.date.key ≤ dateKeyOfStr s))
    && guardOpt f.category (fun s => decide (catToString t.category = s))
    && guardOpt f.type (fun s => decide (typeToString t.type = s))))

theorem mem_insertDesc (a t : Txn) (l : List Txn) :
    a ∈ insertDesc t l ↔ a = t ∨ a ∈ l := by
  induction l with
  | nil => simp [insertDesc]
  | cons u us ih =>
    simp only [insertDesc]
    split
    · simp
    · simp [ih]
      tauto

theorem mem_sortByDateDesc (a : Txn) (l : List Txn) :
    a ∈ sortByDateDesc l ↔ a ∈ l := by
  induction l with
  | nil => simp [sortByDateDesc]
  | cons t ts ih => simp [sortByDateDesc, mem_insertDesc, ih]

theorem guardOpt_eq_true (v : Option String) (cond : String → Bool) (hv : v ≠ some "") :
    guardOpt v cond = true ↔ ∀ s, v = some s → cond s = true := by
  cases v with
  | none => simp [guardOpt]
  | some s =>
    have hne : ¬(s = "") := fun h => hv (by rw [h])
    simp [guardOpt, hne]

/-- C4: for every filter whose supplied fields are meaningful (non-empty)
values, `getTransactions` returns exactly the owner's rows satisfying every
supplied predicate — `date ≥ startDate`, `date ≤ endDate` inclusive, exact
match on `category` and `type` — absent fields imposing no constraint; and
it returns the empty sequence (never an error: the function is total) when
nothing matches. -/
theorem getTransactions_filter_exact (store : List Txn) (uid : String) (f : TxnFilter)
    (hs : f.startDate ≠ some "") (he : f.endDate ≠ some "")
    (hc : f.category ≠ some "") (ht : f.type ≠ some "") :
    (∀ t, t ∈ getTransactions store uid f ↔
      (t ∈ store ∧ t.userId = uid
        ∧ (∀ s, f.startDate = some s → dateKeyOfStr s ≤ t.date.key)
        ∧ (∀ s, f.endDate = some s → t.date.key ≤ dateKeyOfStr s)
        ∧ (∀ s, f.category = some s → catToString t.category = s)
        ∧ (∀ s, f.type = some s → typeToString t.type = s)))
    ∧ ((∀ t, ¬(t ∈ store ∧ t.userId = uid
        ∧ (∀ s, f.startDate = some s → dateKeyOfStr s ≤ t.date.key)
        ∧ (∀ s, f.endDate = some s → t.date.key ≤ dateKeyOfStr s)
        ∧ (∀ s, f.category = some s → catToString t.category = s)
        ∧ (∀ s, f.type = some s → typeToString t.type = s)))
      → getTransactions store uid f = []) := by
  have main : ∀ t, t ∈ getTransactions store uid f ↔
      (t ∈ store ∧ t.userId = uid
        ∧ (∀ s, f.startDate = some s → dateKeyOfStr s ≤ t.date.key)
        ∧ (∀ s, f.endDate = some s → t.date.key ≤ dateKeyOfStr s)
        ∧ (∀ s, f.category = some s → catToString t.category = s)
        ∧ (∀ s, f.type = some s → typeToString t.type = s)) := by
    intro t
    rw [getTransactions, mem_sortByDateDesc, List.mem_filter]
    simp only [Bool.and_eq_true, decide_eq_true_eq,
      guardOpt_eq_true _ _ hs, guardOpt_eq_true _ _ he,
      guardOpt_eq_true _ _ hc, guardOpt_eq_true _ _ ht, decide_eq_true_eq]
    tauto
  refine ⟨main, fun hnone => ?_⟩
  rw [List.eq_nil_iff_forall_not_mem]
  intro t htm
  exact hnone t ((main t).mp htm)

/-- Witness for C4: a concrete date-range-and-kind filter returns the
matching sample row. -/
theorem getTransactions_filter_exact_witness :
    sampleTxn ∈ getTransactions [sampleTxn] "u"
      ⟨some "2024-01-01", some "2024-12-31", none, some "income"⟩ :=
  ((getTransactions_filter_exact [sampleTxn] "u"
      ⟨some "2024-01-01", some "2024-12-31", none, some "income"⟩
      (by decide) (by decide) (by decide) (by decide)).1 sampleTxn).mpr
    ⟨List.mem_singleton_self _, rfl,
     fun s hs => by cases hs; decide,
     fun s hs => by cases hs; decide,
     fun s hs => Option.noConfusion hs,
     fun s hs => by cases hs; decide⟩

/-- C10 (implicit): a filter field supplied as the empty string is treated
exactly like an absent field — the all-empty-strings filter behaves as the
all-absent filter and returns the owner's full transaction list (no empty
result and no error). -/
theorem getTransactions_empty_strings (store : List Txn) (uid : String) :
    getTransactions store uid ⟨some "", some "", some "", some ""⟩
      = getTransactions store uid ⟨none, none, none, none⟩
    ∧ ∀ t, t ∈ getTransactions store uid ⟨some "", some "", some "", some ""⟩
        ↔ (t ∈ store ∧ t.userId = uid) := by
  constructor
  · unfold getTransactions
    congr 1
  · intro t
    rw [getTransactions, mem_sortByDateDesc, List.mem_filter]
    simp [guardOpt]

/-- Witness for C10 at a concrete two-owner store. -/
theorem getTransactions_empty_strings_witness :
    sampleTxn ∈ getTransactions [sampleTxn, sampleTxn2] "u"
      ⟨some "", some "", some "", some ""⟩ :=
  ((getTransactions_empty_strings [sampleTxn, sampleTxn2] "u").2 sampleTxn).mpr
    ⟨List.mem_cons_self _ _, rfl⟩

/-! ## updateTransaction / deleteTransaction -/

/-- A partial update (`Partial<InsertTransaction>` after
`insertTransactionSchema.partial()`, which omits `id`, `userId`,
`createdAt`, `updatedAt`): only the present fields are applied. -/
structure TxnPatch where
  type : Option TxnType
  description : Option String
  amount : Option ℚ
  category : Option Category
  date : Option SDate
  currency : Option String
deriving Repr

/-- The columns `SET` by `updateTransaction`:
`\x7b ...updates, updatedAt: new Date() \x7d` — present patch fields
overwrite, `updatedAt` is always refreshed. -/
def applyTxnPatch (p : TxnPatch) (now : Nat) (t : Txn) : Txn :=
  { t with
    type := p.type.getD t.type
    description := p.description.getD t.description
    amount := p.amount.getD t.amount
    category := p.category.getD t.category
    date := p.date.getD t.date
    currency := p.currency.getD t.currency
    updatedAt := now }

/-- The all-absent patch. -/
def emptyTxnPatch : TxnPatch := ⟨none, none, none, none, none, none⟩

/-- `DatabaseStorage.updateTransaction` (routes.ts storage section, lines
425–432): `UPDATE ... WHERE id = $id AND userId = $uid RETURNING`, the
route takes the first returned row (`undefined`, i.e. `none`, when the
`WHERE` clause matched nothing).  Returns the returned row and the new
store contents. -/
def updateTransaction (store : List Txn) (id uid : String) (p : TxnPatch) (now : Nat) :
    Option Txn × List Txn :=
  let hit := fun t : Txn => decide (t.id = id ∧ t.userId = uid)
  ((store.find? hit).map (applyTxnPatch p now),
   store.map (fun t => if hit t then applyTxnPatch p now t else t))

/-- `DatabaseStorage.deleteTransaction` (routes.ts storage section, lines
434–439): `DELETE ... WHERE id = $id AND userId = $uid`; returns
`rowCount > 0` and the new store contents. -/
def deleteTransaction (store : List Txn) (id uid : String) : Bool × List Txn :=
  let hit := fun t : Txn => decide (t.id = id ∧ t.userId = uid)
  (decide (0 < (store.filter hit).length), store.filter (fun t => !(hit t)))

theorem filter_map_invariant (g : Txn → Txn) (p : Txn → Bool) (l : List Txn)
    (h : ∀ t, p (g t) = p t ∧ (p t = true → g t = t)) :
    (l.map g).filter p = l.filter p := by
  induction l with
  | nil => rfl
  | cons a l ih =>
    simp only [List.map_cons, List.filter_cons]
    rw [(h a).1]
    cases hp : p a
    · simpa using ih
    · simp only [(h a).2 hp, ih]

/-- C5: owner isolation.  With distinct owners `uid1 ≠ uid2`: reads under
`uid1` only return `uid1` rows; an update under `uid1` only ever returns a
`uid1` row; update and delete under `uid1` leave `uid2`'s rows exactly
unchanged even when the row id is known; and updating or deleting an id
that has no row under `uid1` (in particular an id owned by `uid2`) returns
`none`/`false` and leaves the store untouched — observationally identical
to a truly absent id. -/
theorem ownership_isolation (store : List Txn) (id uid1 uid2 : String)
    (p : TxnPatch) (now : Nat) (f : TxnFilter) (hne : uid1 ≠ uid2) :
    (∀ t ∈ getTransactions store uid1 f, t.userId = uid1)
    ∧ (∀ r, (updateTransaction store id uid1 p now).1 = some r → r.userId = uid1)
    ∧ ((updateTransaction store id uid1 p now).2.filter (fun t => decide (t.userId = uid2))
        = store.filter (fun t => decide (t.userId = uid2)))
    ∧ ((deleteTransaction store id uid1).2.filter (fun t => decide (t.userId = uid2))
        = store.filter (fun t => decide (t.userId = uid2)))
    ∧ ((∀ t ∈ store, t.id = id → t.userId ≠ uid1) →
        (updateTransaction store id uid1 p now).1 = none
        ∧ (updateTransaction store id uid1 p now).2 = store
        ∧ (deleteTransaction store id uid1).1 = false
        ∧ (deleteTransaction store id uid1).2 = store) := by
  refine ⟨?_, ?_, ?_, ?_, ?_⟩
  · intro t htm
    rw [getTransactions, mem_sortByDateDesc, List.mem_filter] at htm
    have := htm.2
    simp only [Bool.and_eq_true, decide_eq_true_eq] at this
    exact this.1.1.1.1
  · intro r hr
    simp only [updateTransaction, Option.map_eq_some'] at hr
    obtain ⟨b, hfind, hr⟩ := hr
    have hbp := List.find?_some hfind
    simp only [decide_eq_true_eq] at hbp
    rw [← hr]
    exact hbp.2
  · apply filter_map_invariant
    intro t
    constructor
    · split
      · next hhit =>
        simp only [decide_eq_true_eq] at hhit
        have : (applyTxnPatch p now t).userId = t.userId := rfl
        rw [this]
      · rfl
    · intro hp
      simp only [decide_eq_true_eq] at hp
      split
      · next hhit =>
        simp only [decide_eq_true_eq] at hhit
        exact absurd (hhit.2.symm.trans hp) hne
      · rfl
  · simp only [deleteTransaction]
    rw [List.filter_filter]
    apply List.filter_congr
    intro t _
    cases hu : decide (t.userId = uid2)
    · simp
    · simp only [decide_eq_true_eq] at hu
      have : decide (t.id = id ∧ t.userId = uid1) = false := by
        simp only [decide_eq_false_iff_not]
        intro h
        exact hne (h.2.symm.trans hu)
      simp [this]
  · intro hforeign
    have hnohit : ∀ t ∈ store, decide (t.id = id ∧ t.userId = uid1) = false := by
      intro t htm
      simp only [decide_eq_false_iff_not]
      intro h
      exact hforeign t htm h.1 h.2
    refine ⟨?_, ?_, ?_, ?_⟩
    · simp only [updateTransaction, Option.map_eq_none']
      rw [List.find?_eq_none]
      intro t htm
      simp [hnohit t htm]
    · simp only [updateTransaction]
      conv_rhs => rw [← List.map_id store]
      apply List.map_congr_left
      intro t htm
      simp [hnohit t htm]
    · have hfil : store.filter (fun t => decide (t.id = id ∧ t.userId = uid1)) = [] :=
        List.filter_eq_nil_iff.mpr (fun t htm => by simp [hnohit t htm])
      simp only [deleteTransaction, hfil]
      rfl
    · simp only [deleteTransaction]
      exact List.filter_eq_self.mpr (fun t htm => by simp [hnohit t htm])

/-- Witness for C5: updating/deleting owner `v`'s row id under owner `u`
behaves as absence. -/
theorem ownership_isolation_witness :
    (updateTransaction [sampleTxn, sampleTxn2] "t2" "u" emptyTxnPatch 5).1 = none
    ∧ (deleteTransaction [sampleTxn, sampleTxn2] "t2" "u").1 = false :=
  let h := (ownership_isolation [sampleTxn, sampleTxn2] "t2" "u" "v" emptyTxnPatch 5
      ⟨none, none, none, none⟩ (by decide)).2.2.2.2 (by decide)
  ⟨h.1, h.2.2.1⟩

/-- C8: `deleteTransaction` returns `true` exactly when a row of the caller
with that id was present (and hence removed); after deletion, no
`listTransactions` call of that owner ever returns a row with the deleted
id again; and deleting a nonexistent or foreign-owned id returns `false`
(the operation is a total function — never an error). -/
theorem deleteTransaction_semantics (store : List Txn) (id uid : String) :
    ((deleteTransaction store id uid).1 = true ↔ ∃ t ∈ store, t.id = id ∧ t.userId = uid)
    ∧ (∀ f t, t ∈ getTransactions (deleteTransaction store id uid).2 uid f → t.id ≠ id)
    ∧ ((∀ t ∈ store, ¬(t.id = id ∧ t.userId = uid)) →
        (deleteTransaction store id uid).1 = false) := by
  have hfst : (deleteTransaction store id uid).1 = true
      ↔ ∃ t ∈ store, t.id = id ∧ t.userId = uid := by
    simp only [deleteTransaction, decide_eq_true_eq]
    rw [List.length_pos]
    constructor
    · intro hne
      obtain ⟨t, htm⟩ := List.exists_mem_of_ne_nil _ hne
      rw [List.mem_filter, decide_eq_true_eq] at htm
      exact ⟨t, htm.1, htm.2⟩
    · rintro ⟨t, htm, hhit⟩
      intro hnil
      have : t ∈ store.filter (fun t => decide (t.id = id ∧ t.userId = uid)) := by
        rw [List.mem_filter, decide_eq_true_eq]
        exact ⟨htm, hhit⟩
      rw [hnil] at this
      exact (List.not_mem_nil t) this
  refine ⟨hfst, ?_, ?_⟩
  · intro f t htm
    rw [getTransactions, mem_sortByDateDesc, List.mem_filter] at htm
    obtain ⟨htm2, hpred⟩ := htm
    simp only [Bool.and_eq_true, decide_eq_true_eq] at hpred
    have huid : t.userId = uid := hpred.1.1.1.1
    simp only [deleteTransaction, List.mem_filter, Bool.not_eq_true',
      decide_eq_false_iff_not] at htm2
    intro hid
    exact htm2.2 ⟨hid, huid⟩
  · intro hnone
    rw [← Bool.not_eq_true, hfst]
    rintro ⟨t, htm, hhit⟩
    exact hnone t htm hhit

/-- Witness for C8: deleting the sample row succeeds, deleting a
foreign-owned id returns `false`, and the removed id is never listed
again. -/
theorem deleteTransaction_semantics_witness :
    (deleteTransaction [sampleTxn] "t1" "u").1 = true
    ∧ (deleteTransaction [sampleTxn2] "t2" "u").1 = false
    ∧ (∀ t, t ∈ getTransactions (deleteTransaction [sampleTxn] "t1" "u").2 "u"
        ⟨none, none, none, none⟩ → t.id ≠ "t1") :=
  ⟨(deleteTransaction_semantics [sampleTxn] "t1" "u").1.mpr
      ⟨sampleTxn, List.mem_singleton_self _, rfl, rfl⟩,
   (deleteTransaction_semantics [sampleTxn2] "t2" "u").2.2 (by decide),
   fun t => (deleteTransaction_semantics [sampleTxn] "t1" "u").2.1
      ⟨none, none, none, none⟩ t⟩

/-! ## Budgets -/

/-- A row of the `budgets` table (`src/shared/schema.ts`). -/
structure Budget where
  id : String
  userId : String
  category : Category
  amount : ℚ
  period : String
  currency : String
  createdAt : Nat
  updatedAt : Nat
deriving DecidableEq, Repr

/-- A partial budget update (`Partial<InsertBudget>` after
`insertBudgetSchema.partial()`, which omits `id`, `userId`, `createdAt`,
`updatedAt`). -/
structure BudgetPatch where
  category : Option Category
  amount : Option ℚ
  period : Option String
  currency : Option String
deriving Repr

/-- The columns `SET` by `updateBudget`:
`\x7b ...updates, updatedAt: new Date() \x7d`. -/
def applyBudgetPatch (p : BudgetPatch) (now : Nat) (b : Budget) : Budget :=
  { b with
    category := p.category.getD b.category
    amount := p.amount.getD b.amount
    period := p.period.getD b.period
    currency := p.currency.getD b.currency
    updatedAt := now }

/-- The patch whose only present field is `period`. -/
def periodPatch (per : String) : BudgetPatch := ⟨none, none, some per, none⟩

/-- `DatabaseStorage.updateBudget` (routes.ts storage section, lines
456–463): `UPDATE ... WHERE id = $id AND userId = $uid RETURNING`; same
shape as `updateTransaction`. -/
def updateBudget (store : List Budget) (id uid : String) (p : BudgetPatch) (now : Nat) :
    Option Budget × List Budget :=
  let hit := fun b : Budget => decide (b.id = id ∧ b.userId = uid)
  ((store.find? hit).map (applyBudgetPatch p now),
   store.map (fun b => if hit b then applyBudgetPatch p now b else b))

/-- C9: updating a budget with a patch containing only `period` leaves
`amount`, `category` and every other non-identity field (`currency`,
`createdAt`) unchanged, keeps the identity fields (`id`, `userId`), sets
`period`, and refreshes `updatedAt` — both on the returned row (which
arises from a matching stored row) and row-for-row in the store. -/
theorem updateBudget_period_frame (store : List Budget) (id uid per : String) (now : Nat) :
    (∀ r, (updateBudget store id uid (periodPatch per) now).1 = some r →
      ∃ b ∈ store, b.id = id ∧ b.userId = uid
        ∧ r.amount = b.amount ∧ r.category = b.category ∧ r.currency = b.currency
        ∧ r.id = b.id ∧ r.userId = b.userId ∧ r.createdAt = b.createdAt
        ∧ r.period = per ∧ r.updatedAt = now)
    ∧ ((updateBudget store id uid (periodPatch per) now).2
        = store.map (fun b => if decide (b.id = id ∧ b.userId = uid) = true
            then applyBudgetPatch (periodPatch per) now b else b))
    ∧ (∀ b : Budget,
        (applyBudgetPatch (periodPatch per) now b).amount = b.amount
        ∧ (applyBudgetPatch (periodPatch per) now b).category = b.category
        ∧ (applyBudgetPatch (periodPatch per) now b).currency = b.currency
        ∧ (applyBudgetPatch (periodPatch per) now b).createdAt = b.createdAt
        ∧ (applyBudgetPatch (periodPatch per) now b).period = per
        ∧ (applyBudgetPatch (periodPatch per) now b).updatedAt = now) := by
  refine ⟨?_, rfl, fun b => ⟨rfl, rfl, rfl, rfl, rfl, rfl⟩⟩
  intro r hr
  simp only [updateBudget, Option.map_eq_some'] at hr
  obtain ⟨b, hfind, hr⟩ := hr
  have hbmem := List.mem_of_find?_eq_some hfind
  have hbp := List.find?_some hfind
  simp only [decide_eq_true_eq] at hbp
  subst hr
  exact ⟨b, hbmem, hbp.1, hbp.2, rfl, rfl, rfl, rfl, rfl, rfl, rfl, rfl⟩

/-- A sample budget row. -/
def sampleBudget : Budget :=
  { id := "b1", userId := "u", category := .food, amount := 500,
    period := "monthly", currency := "INR", createdAt := 0, updatedAt := 0 }

/-- Witness for C9: updating the sample budget's period to `weekly` keeps
`amount` and `category` and refreshes `updatedAt`. -/
theorem updateBudget_period_frame_witness :
    ∃ b ∈ [sampleBudget], b.id = "b1" ∧ b.userId = "u"
      ∧ (applyBudgetPatch (periodPatch "weekly") 7 sampleBudget).amount = b.amount
      ∧ (applyBudgetPatch (periodPatch "weekly") 7 sampleBudget).category = b.category
      ∧ (applyBudgetPatch (periodPatch "weekly") 7 sampleBudget).currency = b.currency
      ∧ (applyBudgetPatch (periodPatch "weekly") 7 sampleBudget).id = b.id
      ∧ (applyBudgetPatch (periodPatch "weekly") 7 sampleBudget).userId = b.userId
      ∧ (applyBudgetPatch (periodPatch "weekly") 7 sampleBudget).createdAt = b.createdAt
      ∧ (applyBudgetPatch (periodPatch "weekly") 7 sampleBudget).period = "weekly"
      ∧ (applyBudgetPatch (periodPatch "weekly") 7 sampleBudget).updatedAt = 7 :=
  (updateBudget_period_frame [sampleBudget] "b1" "u" "weekly" 7).1
    (applyBudgetPatch (periodPatch "weekly") 7 sampleBudget) rfl

/-! ## getExpensesByCategory -/

/-- Row predicate of `getExpensesByCategory`'s `WHERE` clause: the owner's
expense transactions with `date` in `[startDate, endDate]` inclusive (the
bounds arrive as query strings; route lines 267–282 require both). -/
def expenseInRange (uid : String) (startS endS : String) (t : Txn) : Bool :=
  decide (t.userId = uid ∧ t.type = TxnType.expense
    ∧ dateKeyOfStr startS ≤ t.date.key ∧ t.date.key ≤ dateKeyOfStr endS)

/-- `DatabaseStorage.getExpensesByCategory` (routes.ts storage section,
lines 549–571): `GROUP BY category` over the matching rows with
`sum(amount)` per group — one output entry per distinct category present
among the matching rows (`List.dedup`; the SQL statement has no `ORDER BY`,
any deterministic grouping order is a faithful model), each paired with
that category's sum. -/
def getExpensesByCategory (store : List Txn) (uid : String) (startS endS : String) :
    List (Category × ℚ) :=
  let rows := store.filter (expenseInRange uid startS endS)
  let cats := (rows.map Txn.category).dedup
  cats.map (fun c => (c, sumAmounts (rows.filter (fun t => decide (t.category = c)))))

/-- C7 (amended): one entry per category having at least one matching
expense in range, no category twice, each amount the sum of that category's
matching expense amounts, zero-match categories omitted; and the amounts
are positive whenever every matching stored amount is positive (the
original "never zero" fails when a matching expense has amount `0`, which
the store accepts). -/
theorem expensesByCategory_partition (store : List Txn) (uid : String) (startS endS : String) :
    ((getExpensesByCategory store uid startS endS).map Prod.fst).Nodup
    ∧ (∀ c : Category,
        c ∈ (getExpensesByCategory store uid startS endS).map Prod.fst
        ↔ ∃ t ∈ store, expenseInRange uid startS endS t = true ∧ t.category = c)
    ∧ (∀ p ∈ getExpensesByCategory store uid startS endS,
        p.2 = sumAmounts (store.filter (fun t =>
          expenseInRange uid startS endS t && decide (t.category = p.1))))
    ∧ ((∀ t ∈ store, expenseInRange uid startS endS t = true → 0 < t.amount) →
        ∀ p ∈ getExpensesByCategory store uid startS endS, 0 < p.2) := by
  refine ⟨?_, ?_, ?_, ?_⟩
  · rw [getExpensesByCategory]
    have : ((((store.filter (expenseInRange uid startS endS)).map Txn.category).dedup).map
        (fun c => (c, sumAmounts ((store.filter (expenseInRange uid startS endS)).filter
          (fun t => decide (t.category = c)))))).map Prod.fst
        = ((store.filter (expenseInRange uid startS endS)).map Txn.category).dedup := by
      rw [List.map_map]
      exact List.map_id _
    rw [this]
    exact List.nodup_dedup _
  · intro c
    rw [getExpensesByCategory]
    simp only [List.map_map, List.mem_map, Function.comp]
    constructor
    · rintro ⟨c', hc', rfl⟩
      rw [List.mem_dedup, List.mem_map] at hc'
      obtain ⟨t, htm, rfl⟩ := hc'
      rw [List.mem_filter] at htm
      exact ⟨t, htm.1, htm.2, rfl⟩
    · rintro ⟨t, htm, hmatch, rfl⟩
      refine ⟨t.category, ?_, rfl⟩
      rw [List.mem_dedup, List.mem_map]
      exact ⟨t, List.mem_filter.mpr ⟨htm, hmatch⟩, rfl⟩
  · intro p hp
    rw [getExpensesByCategory] at hp
    simp only [List.mem_map] at hp
    obtain ⟨c, _, rfl⟩ := hp
    simp only
    rw [List.filter_filter]
    apply congrArg
    apply List.filter_congr
    intro t _
    exact Bool.and_comm _ _
  · intro hpos p hp
    have hsum := by
      rw [getExpensesByCategory] at hp
      simp only [List.mem_map] at hp
      exact hp
    obtain ⟨c, hc, rfl⟩ := hsum
    simp only
    rw [List.mem_dedup, List.mem_map] at hc
    obtain ⟨t0, ht0, hcat⟩ := hc
    have ht0' := List.mem_filter.mp ht0
    -- the rows of category c among the matching rows: nonempty, all positive
    have hmem : t0 ∈ (store.filter (expenseInRange uid startS endS)).filter
        (fun t => decide (t.category = c)) := by
      rw [List.mem_filter, decide_eq_true_eq]
      exact ⟨ht0, hcat⟩
    have hall : ∀ t ∈ (store.filter (expenseInRange uid startS endS)).filter
        (fun t => decide (t.category = c)), 0 < t.amount := by
      intro t htm
      have := (List.mem_filter.mp (List.mem_filter.mp htm).1)
      exact hpos t this.1 this.2
    -- a sum of positives with at least one summand is positive
    generalize hl : (store.filter (expenseInRange uid startS endS)).filter
        (fun t => decide (t.category = c)) = l at hmem hall
    clear hl ht0 ht0' hcat
    induction l with
    | nil => exact absurd hmem (List.not_mem_nil t0)
    | cons a l ih =>
      rw [sumAmounts, List.map_cons, List.sum_cons]
      rcases List.mem_cons.mp hmem with h | h
      · have ha := hall a (List.mem_cons_self a l)
        have hrest : 0 ≤ (l.map Txn.amount).sum := by
          apply List.sum_nonneg
          intro q hq
          rw [List.mem_map] at hq
          obtain ⟨t, htm, rfl⟩ := hq
          exact le_of_lt (hall t (List.mem_cons_of_mem a htm))
        calc (0 : ℚ) < a.amount := ha
          _ ≤ a.amount + (l.map Txn.amount).sum := le_add_of_nonneg_right hrest
      · have := ih h (fun t htm => hall t (List.mem_cons_of_mem a htm))
        rw [sumAmounts] at this
        have ha := le_of_lt (hall a (List.mem_cons_self a l))
        calc (0 : ℚ) < (l.map Txn.amount).sum := this
          _ ≤ a.amount + (l.map Txn.amount).sum := le_add_of_nonneg_left ha

/-- Witness for C7 at a concrete two-category store. -/
theorem expensesByCategory_partition_witness :
    Category.food ∈ (getExpensesByCategory [sampleTxn2] "v"
        "2024-01-01" "2024-12-31").map Prod.fst :=
  ((expensesByCategory_partition [sampleTxn2] "v" "2024-01-01" "2024-12-31").2.1
      Category.food).mpr
    ⟨sampleTxn2, List.mem_singleton_self _, by decide, rfl⟩

/-- A zero-amount expense row (the store accepts amount `0`; the spec's own
data model allows `amount ≥ 0`). -/
def zeroTxn : Txn :=
  { id := "t0", userId := "u", type := .expense, description := "freebie",
    amount := 0, category := .food, date := ⟨2024, 3, 10⟩,
    currency := "INR", createdAt := 0, updatedAt := 0 }

/-- Counterexample to C7 as stated: with a single matching expense of
amount `0`, `getExpensesByCategory` emits the entry `(food, 0)` — a
category present with a zero sum, which the claim forbids. -/
theorem expensesByCategory_zero_sum_counterexample :
    getExpensesByCategory [zeroTxn] "u" "2024-01-01" "2024-12-31"
      = [(Category.food, 0)]
    ∧ ¬(∀ p ∈ getExpensesByCategory [zeroTxn] "u" "2024-01-01" "2024-12-31",
        0 < p.2) := by
  have hin : expenseInRange "u" "2024-01-01" "2024-12-31" zeroTxn = true := by decide
  have hfil : [zeroTxn].filter (expenseInRange "u" "2024-01-01" "2024-12-31") = [zeroTxn] := by
    rw [List.filter_cons_of_pos hin]
    rfl
  have hmain : getExpensesByCategory [zeroTxn] "u" "2024-01-01" "2024-12-31"
      = [(Category.food, 0)] := by
    simp only [getExpensesByCategory, hfil]
    have hded : (([zeroTxn].map Txn.category).dedup) = [Category.food] := by decide
    rw [hded]
    rw [List.map_singleton, List.filter_cons_of_pos (by decide), List.filter_nil]
    simp [sumAmounts, zeroTxn]
  refine ⟨hmain, fun h => ?_⟩
  have := h (Category.food, 0) (by rw [hmain]; exact List.mem_singleton_self _)
  exact lt_irrefl 0 this

/-! ## getIncomeVsExpenses -/

/-- JavaScript `Date` month arithmetic used to compute the cutoff
(`startDate.setMonth(startDate.getMonth() - months)`): step back `months`
calendar months keeping the day-of-month; when the target month is shorter
than that day, JavaScript normalizes the overflow into the following month
(e.g. March 31 minus one month gives February 31, normalized to March 3). -/
def jsMonthsAgo (today : SDate) (months : Nat) : SDate :=
  let total := today.y * 12 + (today.m - 1) - months
  let y := total / 12
  let m := total % 12 + 1
  if today.d ≤ daysInMonth y m then ⟨y, m, today.d⟩
  else ⟨if m = 12 then y + 1 else y, if m = 12 then 1 else m + 1, today.d - daysInMonth y m⟩

/-- Order key of a year-month (`to_char(date, 'YYYY-MM')` group label):
`y*100 + m`; numeric order coincides with lexicographic `YYYY-MM` order. -/
def ymKey (dt : SDate) : Nat := dt.y * 100 + dt.m

/-- Ascending insertion into a sorted list of keys. -/
def insertAsc (n : Nat) : List Nat → List Nat
  | [] => [n]
  | x :: xs => if n ≤ x then n :: x :: xs else x :: insertAsc n xs

/-- Ascending insertion sort (`ORDER BY to_char(date, 'YYYY-MM')`,
routes.ts storage section, line 593; the JS object transform preserves
first-appearance order of the month keys, so the output order is the SQL
order). -/
def sortAsc : List Nat → List Nat
  | [] => []
  | x :: xs => insertAsc x (sortAsc xs)

/-- `DatabaseStorage.getIncomeVsExpenses` (routes.ts storage section, lines
573–614): rows of the owner with `date ≥ cutoff` (no upper bound), grouped
by year-month and type with `sum(amount)`, transformed into one
`(month, income, expenses)` entry per month present (a missing kind stays
at the `0` the transform initializes). -/
def getIncomeVsExpenses (store : List Txn) (uid : String) (today : SDate) (months : Nat) :
    List (Nat × ℚ × ℚ) :=
  let cutoff := jsMonthsAgo today months
  let rows := store.filter (fun t => decide (t.userId = uid ∧ cutoff.key ≤ t.date.key))
  let yms := sortAsc ((rows.map (fun t => ymKey t.date)).dedup)
  yms.map (fun k => (k,
    sumAmounts (rows.filter (fun t => decide (ymKey t.date = k ∧ t.type = TxnType.income))),
    sumAmounts (rows.filter (fun t => decide (ymKey t.date = k ∧ t.type = TxnType.expense)))))

theorem mem_insertAsc (a n : Nat) (l : List Nat) :
    a ∈ insertAsc n l ↔ a = n ∨ a ∈ l := by
  induction l with
  | nil => simp [insertAsc]
  | cons x xs ih =>
    simp only [insertAsc]
    split
    · simp
    · simp [ih]
      tauto

theorem mem_sortAsc (a : Nat) (l : List Nat) : a ∈ sortAsc l ↔ a ∈ l := by
  induction l with
  | nil => simp [sortAsc]
  | cons x xs ih => simp [sortAsc, mem_insertAsc, ih]

theorem sorted_insertAsc (n : Nat) (l : List Nat) (h : l.Sorted (· ≤ ·)) :
    (insertAsc n l).Sorted (· ≤ ·) := by
  induction l with
  | nil => simp [insertAsc]
  | cons x xs ih =>
    rw [List.sorted_cons] at h
    simp only [insertAsc]
    split
    · next hle =>
      rw [List.sorted_cons]
      refine ⟨?_, List.sorted_cons.mpr h⟩
      intro b hb
      rcases List.mem_cons.mp hb with rfl | hb
      · exact hle
      · exact le_trans hle (h.1 b hb)
    · next hgt =>
      rw [List.sorted_cons]
      refine ⟨?_, ih h.2⟩
      intro b hb
      rcases (mem_insertAsc b n xs).mp hb with rfl | hb
      · omega
      · exact h.1 b hb

theorem sorted_sortAsc (l : List Nat) : (sortAsc l).Sorted (· ≤ ·) := by
  induction l with
  | nil => simp [sortAsc]
  | cons x xs ih => exact sorted_insertAsc x (sortAsc xs) ih

theorem nodup_insertAsc (n : Nat) (l : List Nat) (hn : n ∉ l) (h : l.Nodup) :
    (insertAsc n l).Nodup := by
  induction l with
  | nil => simp [insertAsc]
  | cons x xs ih =>
    rw [List.nodup_cons] at h
    simp only [insertAsc]
    split
    · next hle =>
      rw [List.nodup_cons, List.nodup_cons]
      exact ⟨hn, h⟩
    · next hgt =>
      rw [List.nodup_cons]
      constructor
      · rw [mem_insertAsc]
        rintro (rfl | hx)
        · exact hgt le_rfl
        · exact h.1 hx
      · exact ih (fun hmem => hn (List.mem_cons_of_mem x hmem)) h.2

theorem nodup_sortAsc (l : List Nat) (h : l.Nodup) : (sortAsc l).Nodup := by
  induction l with
  | nil => simp [sortAsc]
  | cons x xs ih =>
    rw [List.nodup_cons] at h
    exact nodup_insertAsc x (sortAsc xs) (fun hmem => h.1 ((mem_sortAsc x xs).mp hmem))
      (ih h.2)

/-- C3 (amended): the series contains exactly one entry per calendar month
having at least one of the owner's transactions with
`date ≥ jsMonthsAgo today monthCount` — the cutoff keeps the day-of-month,
so the earliest month is only partially covered, and there is no upper
bound, so months after the current one contribute as well; entries are
sorted ascending by month with no month twice; each entry's `income`
(resp. `expenses`) is the sum of that month's matching income (resp.
expense) transactions, and a month with no transaction of one kind reports
`0` for that kind. -/
theorem incomeVsExpenses_series (store : List Txn) (uid : String) (today : SDate)
    (months : Nat) :
    ((getIncomeVsExpenses store uid today months).map Prod.fst).Sorted (· ≤ ·)
    ∧ ((getIncomeVsExpenses store uid today months).map Prod.fst).Nodup
    ∧ (∀ k, k ∈ (getIncomeVsExpenses store uid today months).map Prod.fst ↔
        ∃ t ∈ store, t.userId = uid ∧ (jsMonthsAgo today months).key ≤ t.date.key
          ∧ ymKey t.date = k)
    ∧ (∀ e ∈ getIncomeVsExpenses store uid today months,
        e.2.1 = sumAmounts (store.filter (fun t =>
          decide (t.userId = uid ∧ (jsMonthsAgo today months).key ≤ t.date.key
            ∧ ymKey t.date = e.1 ∧ t.type = TxnType.income)))
        ∧ e.2.2 = sumAmounts (store.filter (fun t =>
          decide (t.userId = uid ∧ (jsMonthsAgo today months).key ≤ t.date.key
            ∧ ymKey t.date = e.1 ∧ t.type = TxnType.expense))))
    ∧ (∀ e ∈ getIncomeVsExpenses store uid today months,
        ((∀ t ∈ store, ¬(t.userId = uid ∧ (jsMonthsAgo today months).key ≤ t.date.key
            ∧ ymKey t.date = e.1 ∧ t.type = TxnType.income)) → e.2.1 = 0)
        ∧ ((∀ t ∈ store, ¬(t.userId = uid ∧ (jsMonthsAgo today months).key ≤ t.date.key
            ∧ ymKey t.date = e.1 ∧ t.type = TxnType.expense)) → e.2.2 = 0)) := by
  have hfst : (getIncomeVsExpenses store uid today months).map Prod.fst
      = sortAsc (((store.filter (fun t =>
          decide (t.userId = uid ∧ (jsMonthsAgo today months).key ≤ t.date.key))).map
            (fun t => ymKey t.date)).dedup) := by
    simp only [getIncomeVsExpenses, List.map_map]
    exact List.map_id _
  have h4 : ∀ e ∈ getIncomeVsExpenses store uid today months,
      e.2.1 = sumAmounts (store.filter (fun t =>
        decide (t.userId = uid ∧ (jsMonthsAgo today months).key ≤ t.date.key
          ∧ ymKey t.date = e.1 ∧ t.type = TxnType.income)))
      ∧ e.2.2 = sumAmounts (store.filter (fun t =>
        decide (t.userId = uid ∧ (jsMonthsAgo today months).key ≤ t.date.key
          ∧ ymKey t.date = e.1 ∧ t.type = TxnType.expense))) := by
    intro e he
    simp only [getIncomeVsExpenses, List.mem_map] at he
    obtain ⟨k, hk, rfl⟩ := he
    constructor <;>
    · simp only
      rw [List.filter_filter]
      apply congrArg
      apply List.filter_congr
      intro t _
      rw [Bool.eq_iff_iff]
      simp only [Bool.and_eq_true, decide_eq_true_eq]
      exact ⟨fun ⟨⟨h1, h2⟩, h3, h4⟩ => ⟨h3, h4, h1, h2⟩,
             fun ⟨h3, h4, h1, h2⟩ => ⟨⟨h1, h2⟩, h3, h4⟩⟩
  refine ⟨?_, ?_, ?_, h4, ?_⟩
  · rw [hfst]
    exact sorted_sortAsc _
  · rw [hfst]
    exact nodup_sortAsc _ (List.nodup_dedup _)
  · intro k
    rw [hfst, mem_sortAsc, List.mem_dedup, List.mem_map]
    constructor
    · rintro ⟨t, htm, rfl⟩
      rw [List.mem_filter, decide_eq_true_eq] at htm
      exact ⟨t, htm.1, htm.2.1, htm.2.2, rfl⟩
    · rintro ⟨t, htm, huid, hcut, hym⟩
      exact ⟨t, List.mem_filter.mpr ⟨htm, by rw [decide_eq_true_eq]; exact ⟨huid, hcut⟩⟩, hym⟩
  · intro e he
    have h4e := h4 e he
    constructor
    · intro hnone
      rw [h4e.1, List.filter_eq_nil_iff.mpr (fun t htm => by
        simp only [decide_eq_true_eq]
        exact fun h => hnone t htm h)]
      simp [sumAmounts]
    · intro hnone
      rw [h4e.2, List.filter_eq_nil_iff.mpr (fun t htm => by
        simp only [decide_eq_true_eq]
        exact fun h => hnone t htm h)]
      simp [sumAmounts]

/-- A transaction dated after the current month (stores accept any date). -/
def futureTxn : Txn :=
  { id := "tf", userId := "u", type := .income, description := "bonus",
    amount := 100, category := .salary, date := ⟨2025, 1, 1⟩,
    currency := "INR", createdAt := 0, updatedAt := 0 }

/-- `ym` (a `y*100 + m` month key) lies within the `k` calendar months
ending with `today`'s month — the window the claim asserts. -/
def monthKeyInLastK (today : SDate) (k : Nat) (ym : Nat) : Bool :=
  decide (today.y * 12 + (today.m - 1) + 1 ≤ (ym / 100) * 12 + (ym % 100 - 1) + k
    ∧ (ym / 100) * 12 + (ym % 100 - 1) ≤ today.y * 12 + (today.m - 1))

/-- Counterexample to C3 as stated: with today = 2024-07-15 and
`monthCount = 6`, the six calendar months ending with the current month
are 2024-02 … 2024-07, yet a transaction dated 2025-01-01 produces the
series entry for month 2025-01 — a month outside that range contributes
an entry. -/
theorem incomeVsExpenses_window_counterexample :
    (getIncomeVsExpenses [futureTxn] "u" ⟨2024, 7, 15⟩ 6).map Prod.fst = [202501]
    ∧ monthKeyInLastK ⟨2024, 7, 15⟩ 6 202501 = false := by
  constructor
  · decide
  · decide

/-- Witness for C3's amended statement: the future month key 2025-01 is in
the series for the window membership characterization. -/
theorem incomeVsExpenses_series_witness :
    202501 ∈ (getIncomeVsExpenses [futureTxn] "u" ⟨2024, 7, 15⟩ 6).map Prod.fst :=
  ((incomeVsExpenses_series [futureTxn] "u" ⟨2024, 7, 15⟩ 6).2.2.1 202501).mpr
    ⟨futureTxn, List.mem_singleton_self _, rfl, by decide, rfl⟩

/-! ## createTransaction and its validation boundary -/

/-- The string values of `transactionTypeEnum`. -/
def transactionTypeEnumVals : List String := ["income", "expense"]

/-- The string values of `categoryEnum`. -/
def categoryEnumVals : List String :=
  ["food", "transportation", "entertainment", "utilities", "healthcare",
   "shopping", "income", "salary", "freelance", "investment", "other"]

/-- A `POST /api/transactions` request body with string-typed fields (the
shapes the schema constrains; `currency` is optional). -/
structure RawTxnInput where
  type : String
  description : String
  amount : String
  category : String
  date : String
  currency : Option String
deriving DecidableEq, Repr

/-- `insertTransactionSchema` (`src/shared/schema.ts`, lines 94–99):
drizzle-zod `createInsertSchema(transactions)` with `id`, `userId`,
`createdAt`, `updatedAt` omitted.  The `pgEnum` columns `type` and
`category` map to string-enum checks; the `decimal` column `amount` and the
`date` column map to plain `z.string()` — the schema performs no
numeric-format, sign, or calendar validation on them. -/
def insertTransactionSchemaAccepts (b : RawTxnInput) : Bool :=
  decide (b.type ∈ transactionTypeEnumVals) && decide (b.category ∈ categoryEnumVals)

/-- Split a character list on a separator character. -/
def splitOnChar (sep : Char) : List Char → List (List Char)
  | [] => [[]]
  | c :: cs =>
    let r := splitOnChar sep cs
    if c = sep then [] :: r
    else (c :: r.headD []) :: r.tail

/-- Every character is a decimal digit. -/
def allDigits (cs : List Char) : Bool :=
  cs.all (fun c => decide ('0' ≤ c) && decide (c ≤ '9'))

/-- The store's text→`date` cast (spec §3: `date` is a calendar date):
parses `"YYYY-MM-DD"` and requires a real calendar date. -/
def parseSDate (s : String) : Option SDate :=
  match splitOnDash s.toList with
  | [ys, ms, ds] =>
    if allDigits ys && allDigits ms && allDigits ds
        && !ys.isEmpty && !ms.isEmpty && !ds.isEmpty then
      let dt : SDate := ⟨natOfDigits ys, natOfDigits ms, natOfDigits ds⟩
      if dt.Valid then some dt else none
    else none
  | _ => none

/-- The store's text→`numeric` cast: an optional leading minus sign, a
digit string, and an optional fractional part.  Note the store accepts
negative decimals — `numeric(10, 2)` is a signed column type. -/
def parseDecimal (s : String) : Option ℚ :=
  let step := fun (cs : List Char) =>
    match splitOnChar '.' cs with
    | [ip] => if !ip.isEmpty && allDigits ip then some ((natOfDigits ip : ℚ)) else none
    | [ip, fp] =>
      if !ip.isEmpty && allDigits ip && !fp.isEmpty && allDigits fp then
        some ((natOfDigits ip : ℚ) + (natOfDigits fp : ℚ) / (10 : ℚ) ^ fp.length)
      else none
    | _ => none
  match s.toList with
  | '-' :: rest => (step rest).map (fun q => -q)
  | cs => step cs

/-- The enum value of a `type` string accepted by the `transaction_type`
column. -/
def parseTypeEnum (s : String) : Option TxnType :=
  if s = "income" then some .income
  else if s = "expense" then some .expense
  else none

/-- The enum value of a `category` string accepted by the `category`
column. -/
def parseCategoryEnum (s : String) : Option Category :=
  if s = "food" then some .food
  else if s = "transportation" then some .transportation
  else if s = "entertainment" then some .entertainment
  else if s = "utilities" then some .utilities
  else if s = "healthcare" then some .healthcare
  else if s = "shopping" then some .shopping
  else if s = "income" then some .income
  else if s = "salary" then some .salary
  else if s = "freelance" then some .freelance
  else if s = "investment" then some .investment
  else if s = "other" then some .other
  else none

/-- The row the store's `INSERT` builds from a validated body
(`DatabaseStorage.createTransaction`, storage section lines 417–423):
server-assigned `id` and `createdAt`/`updatedAt` defaults, column casts on
`amount` and `date`; `none` when a cast fails (the insert raises). -/
def castInsertTransaction (b : RawTxnInput) (uid newId : String) (now : Nat) : Option Txn :=
  match parseTypeEnum b.type, parseCategoryEnum b.category,
      parseDecimal b.amount, parseSDate b.date with
  | some ty, some cat, some amt, some dt =>
    some { id := newId, userId := uid, type := ty, description := b.description,
           amount := amt, category := cat, date := dt,
           currency := b.currency.getD "INR", createdAt := now, updatedAt := now }
  | _, _, _, _ => none

/-- Outcome classes of `POST /api/transactions`. -/
inductive ApiError where
  /-- HTTP 400 "Invalid transaction data" — a `ZodError` from
  `insertTransactionSchema.parse`. -/
  | validation
  /-- HTTP 500 "Failed to create transaction" — a non-Zod failure raised by
  the store. -/
  | storeFailure
deriving DecidableEq, Repr

/-- `POST /api/transactions` (routes.ts lines 56–75) composed with
`DatabaseStorage.createTransaction`: zod validation first (failure →
`ApiError.validation`, store untouched), then the insert, whose column
casts can fail in the store (→ `ApiError.storeFailure`, store untouched);
on success the new row is appended and returned. -/
def postTransaction (store : List Txn) (uid : String) (b : RawTxnInput)
    (newId : String) (now : Nat) : Except ApiError Txn × List Txn :=
  if insertTransactionSchemaAccepts b then
    match castInsertTransaction b uid newId now with
    | some row => (.ok row, store ++ [row])
    | none => (.error .storeFailure, store)
  else (.error .validation, store)

/-- The spec's "non-negative decimal" string format: digits with at most
one decimal point and no sign. -/
def isNonNegDecimalStr (s : String) : Bool :=
  match splitOnChar '.' s.toList with
  | [ip] => !ip.isEmpty && allDigits ip
  | [ip, fp] => !ip.isEmpty && allDigits ip && !fp.isEmpty && allDigits fp
  | _ => false

theorem castInsertTransaction_fields (b : RawTxnInput) (uid newId : String) (now : Nat)
    (r : Txn) (h : castInsertTransaction b uid newId now = some r) :
    r.id = newId ∧ r.userId = uid ∧ r.createdAt = now ∧ r.updatedAt = now := by
  rw [castInsertTransaction] at h
  cases h1 : parseTypeEnum b.type with
  | none => rw [h1] at h; simp at h
  | some ty =>
    rw [h1] at h
    cases h2 : parseCategoryEnum b.category with
    | none => rw [h2] at h; simp at h
    | some cat =>
      rw [h2] at h
      cases h3 : parseDecimal b.amount with
      | none => rw [h3] at h; simp at h
      | some amt =>
        rw [h3] at h
        cases h4 : parseSDate b.date with
        | none => rw [h4] at h; simp at h
        | some dt =>
          rw [h4] at h
          simp only [Option.some.injEq] at h
          rw [← h]
          exact ⟨rfl, rfl, rfl, rfl⟩

/-- C6 (amended): `ValidationError` is raised exactly for an unrecognized
`type` or `category` enum value — rejected before any store mutation (the
store is unchanged); a request passing validation either inserts and
returns the new row with server-assigned id and timestamps (appended to
the store) or fails in the store's column casts as a store failure (not a
`ValidationError`), again leaving the store unchanged.  Amount sign and
date well-formedness are not checked at the validation boundary. -/
theorem createTransaction_validation (store : List Txn) (uid : String) (b : RawTxnInput)
    (newId : String) (now : Nat) :
    ((postTransaction store uid b newId now).1 = .error .validation
      ↔ ¬(b.type ∈ transactionTypeEnumVals ∧ b.category ∈ categoryEnumVals))
    ∧ ((postTransaction store uid b newId now).1 = .error .validation →
        (postTransaction store uid b newId now).2 = store)
    ∧ (∀ r, (postTransaction store uid b newId now).1 = .ok r →
        r.id = newId ∧ r.userId = uid ∧ r.createdAt = now ∧ r.updatedAt = now
        ∧ (postTransaction store uid b newId now).2 = store ++ [r])
    ∧ ((postTransaction store uid b newId now).1 = .error .storeFailure →
        (postTransaction store uid b newId now).2 = store) := by
  have hacc : insertTransactionSchemaAccepts b = true
      ↔ (b.type ∈ transactionTypeEnumVals ∧ b.category ∈ categoryEnumVals) := by
    simp [insertTransactionSchemaAccepts]
  by_cases h : insertTransactionSchemaAccepts b = true
  · simp only [postTransaction, if_pos h]
    cases hcast : castInsertTransaction b uid newId now with
    | none =>
      refine ⟨?_, ?_, ?_, ?_⟩
      · constructor
        · intro heq
          exact absurd heq (by simp)
        · intro hne
          exact absurd (hacc.mp h) hne
      · intro heq
        exact absurd heq (by simp)
      · intro r hr
        exact absurd hr (by simp)
      · intro _
        rfl
    | some row =>
      refine ⟨?_, ?_, ?_, ?_⟩
      · constructor
        · intro heq
          exact absurd heq (by simp)
        · intro hne
          exact absurd (hacc.mp h) hne
      · intro heq
        exact absurd heq (by simp)
      · intro r hr
        have hrr : row = r := by
          simp only [Except.ok.injEq] at hr
          exact hr
        subst hrr
        obtain ⟨f1, f2, f3, f4⟩ := castInsertTransaction_fields b uid newId now row hcast
        exact ⟨f1, f2, f3, f4, rfl⟩
      · intro heq
        exact absurd heq (by simp)
  · simp only [postTransaction, if_neg h]
    refine ⟨?_, by simp, ?_, ?_⟩
    · simp only [true_iff]
      intro hmem
      exact h (hacc.mpr hmem)
    · intro r hr
      exact absurd hr (by simp)
    · intro heq
      exact absurd heq (by simp)

/-- A body with an unrecognized enum value. -/
def badEnumInput : RawTxnInput :=
  { type := "transfer", description := "x", amount := "5.00",
    category := "food", date := "2024-01-15", currency := none }

/-- Witness for C6: an unrecognized `type` value is rejected with
`ValidationError` and the store stays unchanged. -/
theorem createTransaction_validation_witness :
    (postTransaction [] "u" badEnumInput "id1" 0).1 = Except.error ApiError.validation
    ∧ (postTransaction [] "u" badEnumInput "id1" 0).2 = [] :=
  ⟨((createTransaction_validation [] "u" badEnumInput "id1" 0).1).mpr (by decide),
   (createTransaction_validation [] "u" badEnumInput "id1" 0).2.1
     (((createTransaction_validation [] "u" badEnumInput "id1" 0).1).mpr (by decide))⟩

/-- A body whose amount is a negative decimal but otherwise valid. -/
def negAmountInput : RawTxnInput :=
  { type := "expense", description := "x", amount := "-5.00",
    category := "food", date := "2024-01-15", currency := none }

/-- A body whose date is not a valid calendar date but passes validation. -/
def badDateInput : RawTxnInput :=
  { type := "expense", description := "x", amount := "5.00",
    category := "food", date := "2024-02-31", currency := none }

/-- Counterexample to C6 as stated: an amount that is not a non-negative
decimal (`"-5.00"`) is NOT rejected with `ValidationError` — the insert
succeeds and mutates the store; and a malformed calendar date
(`"2024-02-31"`) passes validation and surfaces as a store failure, not a
`ValidationError`. -/
theorem createTransaction_validation_counterexample :
    isNonNegDecimalStr "-5.00" = false
    ∧ (postTransaction [] "u" negAmountInput "id1" 0).1 ≠ Except.error ApiError.validation
    ∧ (postTransaction [] "u" negAmountInput "id1" 0).2 ≠ []
    ∧ (postTransaction [] "u" badDateInput "id1" 0).1 = Except.error ApiError.storeFailure := by
  have hacc : insertTransactionSchemaAccepts negAmountInput = true := by decide
  have hsome : (castInsertTransaction negAmountInput "u" "id1" 0).isSome = true := by decide
  obtain ⟨row, hrow⟩ := Option.isSome_iff_exists.mp hsome
  have heval : postTransaction [] "u" negAmountInput "id1" 0 = (.ok row, [] ++ [row]) := by
    rw [postTransaction, if_pos hacc, hrow]
  have hacc2 : insertTransactionSchemaAccepts badDateInput = true := by decide
  have hnone : castInsertTransaction badDateInput "u" "id1" 0 = none :=
    Option.isNone_iff_eq_none.mp (by decide)
  have heval2 : postTransaction [] "u" badDateInput "id1" 0
      = (.error .storeFailure, []) := by
    rw [postTransaction, if_pos hacc2, hnone]
  refine ⟨by decide, ?_, ?_, ?_⟩
  · rw [heval]
    simp
  · rw [heval]
    simp
  · rw [heval2]
